import Mathlib

/-! Verification of the isola Python SDK core
(crates/python-sdk/python/isola/core.py): JSON argument encoding, event kind
normalization and run aggregation, timeout canonicalization, the HTTP bridge
dispatch, run-operation producer cleanup, the run_stream exit protocol, sandbox
construction, and the stream argument channel. -/

set_option autoImplicit false

namespace Isola

/-- JSON values as accepted by the SDK serializer (Python `json.dumps`).
Numbers are modelled as integers; object member order is the insertion order of
the Python dict supplied by the host. -/
inductive JsonValue where
  | null
  | bool (b : Bool)
  | num (n : Int)
  | str (s : String)
  | arr (elems : List JsonValue)
  | obj (members : List (String × JsonValue))

/-- Lowercase hexadecimal digit, as produced by CPython format 04x. -/
def hexDigitChar (n : Nat) : Char :=
  if n < 10 then Char.ofNat (48 + n) else Char.ofNat (87 + n)

/-- Four lowercase hex digits. -/
def hex4 (n : Nat) : String :=
  String.mk [hexDigitChar (n / 4096 % 16), hexDigitChar (n / 256 % 16),
    hexDigitChar (n / 16 % 16), hexDigitChar (n % 16)]

/-- Escaping of one character of a JSON string, following the CPython
json encoder with its default ensure_ascii=True: quote, backslash and the named
control escapes, other control characters and all non-ASCII characters as
backslash-u sequences (surrogate pairs above the BMP). -/
def escapeChar (c : Char) : String :=
  if c = '"' then "\\\""
  else if c = '\\' then "\\\\"
  else if c = '\n' then "\\n"
  else if c = '\t' then "\\t"
  else if c = '\r' then "\\r"
  else if c.toNat = 8 then "\\b"
  else if c.toNat = 12 then "\\f"
  else if c.toNat < 32 then "\\u" ++ hex4 c.toNat
  else if c.toNat < 127 then String.singleton c
  else if c.toNat < 65536 then "\\u" ++ hex4 c.toNat
  else
    "\\u" ++ hex4 (55296 + (c.toNat - 65536) / 1024)
      ++ "\\u" ++ hex4 (56320 + (c.toNat - 65536) % 1024)

/-- Concatenation of the escapes of each character, the join of the encoder
output for the characters of a string. -/
def escapeAll : List Char → String
  | [] => ""
  | c :: rest => escapeChar c ++ escapeAll rest

/-- A JSON string literal: quoted, characters escaped. -/
def dumpStr (s : String) : String :=
  "\"" ++ escapeAll s.data ++ "\""

mutual

/-- Embedding of Python json.dumps with separators (",", ":"): compact output,
the only bytes between tokens are the item separator "," and the key separator
":". -/
def dumps : JsonValue → String
  | .null => "null"
  | .bool true => "true"
  | .bool false => "false"
  | .num n => toString n
  | .str s => dumpStr s
  | .arr elems => "[" ++ dumpsItems elems ++ "]"
  | .obj members => "\x7b" ++ dumpsMembers members ++ "\x7d"

/-- Array items joined by the item separator ",". -/
def dumpsItems : List JsonValue → String
  | [] => ""
  | [v] => dumps v
  | v :: rest => dumps v ++ "," ++ dumpsItems rest

/-- Object members, each key and value joined by the key separator ":",
members joined by ",". -/
def dumpsMembers : List (String × JsonValue) → String
  | [] => ""
  | [(k, v)] => dumpStr k ++ ":" ++ dumps v
  | (k, v) :: rest => dumpStr k ++ ":" ++ dumps v ++ "," ++ dumpsMembers rest

end

/-- The SDK helper to_json (core.py line 582): compact JSON serialization. -/
def to_json (value : JsonValue) : String := dumps value

/-! Events and the kind normalization map (core.py lines 26-36). -/

/-- An event delivered to the host (core.py Event dataclass): a kind string and
an optional UTF-8 data string. -/
structure Event where
  kind : String
  data : Option String
deriving DecidableEq

/-- The module-level kind rewriting dict EVENT_KIND_MAP (core.py line 30). -/
def EVENT_KIND_MAP : List (String × String) :=
  [("result_json", "result"), ("end_json", "end")]

/-- Python dict.get(k, fallback) over an association list. -/
def dictGetD (m : List (String × String)) (k fallback : String) : String :=
  match m with
  | [] => fallback
  | (key, value) :: rest => if key = k then value else dictGetD rest k fallback

/-- The kind rewriting applied at the host boundary:
EVENT_KIND_MAP.get(kind, kind). -/
def mapEventKind (kind : String) : String := dictGetD EVENT_KIND_MAP kind kind

/-- Event construction in the dispatch closure installed by
Sandbox.set_callback (core.py lines 364-366). -/
def set_callback_event (kind : String) (data : Option String) : Event :=
  { kind := mapEventKind kind, data := data }

/-- Event construction in the dispatch closure installed by
Sandbox.run_stream (core.py lines 510-512). -/
def run_stream_event (kind : String) (data : Option String) : Event :=
  { kind := mapEventKind kind, data := data }

/-! Run aggregation (core.py Sandbox.run, lines 438-485). The decoded JSON
type and the decoder json.loads are parameters: both the code path and the
documented mapping decode event data with the same stdlib function. -/

/-- The RunResult dataclass (core.py lines 39-46), parametric in the decoded
JSON value type. -/
@[ext]
structure RunResult (J : Type) where
  results : List J
  final : Option J
  stdout : List String
  stderr : List String
  logs : List String
  errors : List String
deriving DecidableEq

/-- One iteration of the event loop body of Sandbox.run (lines 446-476): the
kind decides the field, data None is skipped everywhere except end, where it
clears final. -/
def runAccumulate {J : Type} (dec : String → J) (acc : RunResult J)
    (event : Event) : RunResult J :=
  if event.kind = "result" then
    match event.data with
    | some d => { acc with results := acc.results ++ [dec d] }
    | none => acc
  else if event.kind = "end" then
    { acc with final := event.data.map dec }
  else if event.kind = "stdout" then
    match event.data with
    | some d => { acc with stdout := acc.stdout ++ [d] }
    | none => acc
  else if event.kind = "stderr" then
    match event.data with
    | some d => { acc with stderr := acc.stderr ++ [d] }
    | none => acc
  else if event.kind = "log" then
    match event.data with
    | some d => { acc with logs := acc.logs ++ [d] }
    | none => acc
  else
    match event.data with
    | some d => { acc with errors := acc.errors ++ [d] }
    | none => acc

/-- Sandbox.run as a function of the event sequence yielded by run_stream:
fold the loop body over the events starting from the empty accumulators. -/
def run {J : Type} (dec : String → J) (events : List Event) : RunResult J :=
  events.foldl (runAccumulate dec) ⟨[], none, [], [], [], []⟩

/-! The documented kind-to-field mapping, written from the claim. -/

/-- Data strings of the events of one kind, in order. -/
def eventsData (k : String) (events : List Event) : List String :=
  (events.filter (fun e => e.kind = k)).filterMap (fun e => e.data)

/-- Kinds with a dedicated RunResult field. -/
def handledKind (k : String) : Bool :=
  k = "result" || k = "end" || k = "stdout" || k = "stderr" || k = "log"

/-- Data strings of the remaining events (no dedicated field), in order. -/
def errorsData (events : List Event) : List String :=
  (events.filter (fun e => !(handledKind e.kind))).filterMap (fun e => e.data)

/-- The last end event of the sequence, when any. -/
def lastEnd (events : List Event) : Option Event :=
  (events.filter (fun e => e.kind = "end")).getLast?

/-- The final value determined by an optional last end event, over a base
value: the decoded data of that event (None when its data is absent). -/
def finalFrom {J : Type} (dec : String → J) (base : Option J)
    (o : Option Event) : Option J :=
  match o with
  | some e => e.data.map dec
  | none => base

/-- Aggregation of a run_stream event sequence under the documented
kind-to-field mapping: result data decoded into results, the last end event
decoded into final, stdout, stderr and log data collected into the string
lists, all remaining data into errors. -/
def specAggregate {J : Type} (dec : String → J) (events : List Event) :
    RunResult J where
  results := (eventsData "result" events).map dec
  final := finalFrom dec none (lastEnd events)
  stdout := eventsData "stdout" events
  stderr := eventsData "stderr" events
  logs := eventsData "log" events
  errors := errorsData events

theorem eventsData_nil (k : String) : eventsData k [] = [] := rfl

theorem eventsData_cons (k : String) (e : Event) (es : List Event) :
    eventsData k (e :: es) =
      if e.kind = k then
        (match e.data with
          | some d => d :: eventsData k es
          | none => eventsData k es)
      else eventsData k es := by
  by_cases h : e.kind = k <;> cases hd : e.data <;>
    simp [eventsData, List.filter_cons, h, List.filterMap_cons, hd]

theorem errorsData_cons (e : Event) (es : List Event) :
    errorsData (e :: es) =
      if handledKind e.kind then errorsData es
      else
        (match e.data with
          | some d => d :: errorsData es
          | none => errorsData es) := by
  by_cases h : handledKind e.kind = true <;> cases hd : e.data <;>
    simp [errorsData, List.filter_cons, h, List.filterMap_cons, hd]

theorem getLast?_cons {α : Type} (a : α) (l : List α) :
    (a :: l).getLast? = some (l.getLast?.getD a) := by
  induction l generalizing a with
  | nil => rfl
  | cons b t ih =>
    rw [List.getLast?_cons_cons, ih b]
    cases h : t.getLast? <;> simp [List.getLast?_cons_cons, ih b, h]

theorem lastEnd_cons (e : Event) (es : List Event) :
    lastEnd (e :: es) =
      if e.kind = "end" then some ((lastEnd es).getD e) else lastEnd es := by
  by_cases h : e.kind = "end"
  · simp only [lastEnd, List.filter_cons, h, decide_True, if_pos]
    exact getLast?_cons e _
  · simp [lastEnd, List.filter_cons, h]

theorem foldl_runAccumulate {J : Type} (dec : String → J) (events : List Event)
    (acc : RunResult J) :
    events.foldl (runAccumulate dec) acc =
      { results := acc.results ++ (eventsData "result" events).map dec
        final := finalFrom dec acc.final (lastEnd events)
        stdout := acc.stdout ++ eventsData "stdout" events
        stderr := acc.stderr ++ eventsData "stderr" events
        logs := acc.logs ++ eventsData "log" events
        errors := acc.errors ++ errorsData events } := by
  induction events generalizing acc with
  | nil =>
    simp [eventsData, errorsData, lastEnd, finalFrom]
  | cons e es ih =>
    rw [List.foldl_cons, ih]
    have hfin : ∀ base : Option J,
        finalFrom dec base (lastEnd (e :: es)) =
          if e.kind = "end" then
            finalFrom dec (e.data.map dec) (lastEnd es)
          else finalFrom dec base (lastEnd es) := by
      intro base
      rw [lastEnd_cons]
      by_cases h : e.kind = "end"
      · simp only [h, if_pos]
        cases hl : lastEnd es <;> simp [finalFrom, hl]
      · simp [h]
    ext1 <;>
      simp only [runAccumulate, eventsData_cons, errorsData_cons, hfin] <;>
      by_cases h1 : e.kind = "result" <;>
      by_cases h2 : e.kind = "end" <;>
      by_cases h3 : e.kind = "stdout" <;>
      by_cases h4 : e.kind = "stderr" <;>
      by_cases h5 : e.kind = "log" <;>
      simp_all [handledKind] <;>
      cases e.data <;>
      simp

/-- C1: for every decoder and every event sequence yielded by
run_stream(name, args), Sandbox.run(name, args) — which consumes exactly that
sequence — produces the RunResult obtained by aggregating the events under the
documented kind-to-field mapping: result data decoded and appended to results,
the last end event decoded (None when its data is absent) as final,
stdout/stderr/log data appended to the corresponding lists, and all remaining
event data appended to errors. -/
theorem C1_run_refines_stream_aggregation {J : Type} (dec : String → J)
    (events : List Event) : run dec events = specAggregate dec events := by
  rw [run, foldl_runAccumulate]
  rfl

/-! Timeout canonicalization (core.py _timeout_seconds_to_ms, lines 250-267,
and the timeout branch of Sandbox.configure, lines 341-352). Finite floats are
modelled as rationals. -/

/-- The Python exceptions raised by the embedded code paths. -/
inductive PyError where
  | typeError (msg : String)
  | valueError (msg : String)
  | attributeError (name : String)
  | timeoutError
  | runtimeError (msg : String)
deriving DecidableEq

/-- A Python float: a finite value, an infinity, or nan. -/
inductive PyFloat where
  | finite (q : ℚ)
  | inf
  | negInf
  | nan
deriving DecidableEq

/-- A Python value supplied as the timeout keyword of Sandbox.configure. -/
inductive TimeoutInput where
  | none
  | bool (b : Bool)
  | int (n : Int)
  | float (f : PyFloat)
  | other
deriving DecidableEq

/-- float(value) on the inputs that pass the isinstance(value, (int, float))
check. -/
def pyFloatOf : TimeoutInput → Option PyFloat
  | .int n => some (.finite (n : ℚ))
  | .float f => some f
  | _ => Option.none

/-- Tail of _timeout_seconds_to_ms after the type checks: reject non-finite,
reject non-positive, take the ceiling of the second count times 1000, reject a
non-positive result, and return the milliseconds. -/
def timeoutFloatToMs : PyFloat → Except PyError (Option Int)
  | .inf => .error (.valueError "timeout must be finite")
  | .negInf => .error (.valueError "timeout must be finite")
  | .nan => .error (.valueError "timeout must be finite")
  | .finite q =>
    if q ≤ 0 then .error (.valueError "timeout must be greater than 0")
    else
      let timeout_ms := ⌈q * 1000⌉
      if timeout_ms ≤ 0 then
        .error (.valueError "timeout must be at least 0.001 seconds")
      else .ok (some timeout_ms)

/-- The helper _timeout_seconds_to_ms (lines 250-267): None passes through,
bool and non-numeric values raise TypeError, numeric values are converted to
float and canonicalized. -/
def timeout_seconds_to_ms : TimeoutInput → Except PyError (Option Int)
  | .none => .ok Option.none
  | .bool _ => .error (.typeError "timeout must be float | None")
  | .other => .error (.typeError "timeout must be float | None")
  | .int n => timeoutFloatToMs (.finite (n : ℚ))
  | .float f => timeoutFloatToMs f

/-- The two attributes written by the timeout branch of Sandbox.configure
(lines 343-349): the timeout_ms entry of the core patch and the
_http_handler_timeout_seconds attribute. The outer Option models a Python
attribute that may never have been assigned. -/
structure TimeoutConfigState where
  patch_timeout_ms : Option (Option Int)
  http_handler_timeout_seconds : Option (Option ℚ)
deriving DecidableEq

/-- Attribute state of a freshly constructed Sandbox: Sandbox.__init__ (lines
328-339) assigns neither attribute. -/
def initialTimeoutState : TimeoutConfigState := ⟨Option.none, Option.none⟩

/-- The timeout branch of Sandbox.configure: canonicalize the supplied value;
on success store the milliseconds in the patch and the same duration divided
by 1000 as the handler timeout in seconds; on failure the exception propagates
before anything is stored. -/
def configure_timeout (st : TimeoutConfigState) (t : TimeoutInput) :
    Except PyError TimeoutConfigState :=
  match timeout_seconds_to_ms t with
  | .error e => .error e
  | .ok ms =>
    .ok { patch_timeout_ms := some ms
          http_handler_timeout_seconds :=
            some (ms.map (fun m => (m : ℚ) / 1000)) }

/-- C3: a timeout of None is accepted and stored as no timeout; a finite
positive number t with ceil(t*1000) at least 1 is stored as exactly
ceil(t*1000) milliseconds; every other input — boolean, non-numeric,
non-finite, or non-positive — raises and stores nothing (the state is not
updated because the exception propagates out of configure). -/
theorem C3_timeout_canonicalization (st : TimeoutConfigState)
    (t : TimeoutInput) :
    (configure_timeout st TimeoutInput.none =
      .ok ⟨some Option.none, some Option.none⟩) ∧
    (∀ q : ℚ, pyFloatOf t = some (.finite q) → 0 < q → 1 ≤ ⌈q * 1000⌉ →
      configure_timeout st t =
        .ok ⟨some (some ⌈q * 1000⌉), some (some ((⌈q * 1000⌉ : ℚ) / 1000))⟩) ∧
    ((∃ b, t = TimeoutInput.bool b) ∨ t = TimeoutInput.other ∨
        (∃ f : PyFloat, pyFloatOf t = some f ∧ (∀ q : ℚ, f ≠ .finite q)) ∨
        (∃ q : ℚ, pyFloatOf t = some (.finite q) ∧ q ≤ 0) →
      ∃ e, configure_timeout st t = .error e) := by
  refine ⟨rfl, ?_, ?_⟩
  · intro q hq hpos _
    have hms : ¬ (⌈q * 1000⌉ ≤ 0) := by
      have : (0 : ℚ) < q * 1000 := by positivity
      exact not_le.mpr (Int.ceil_pos.mpr this)
    have hq0 : ¬ (q ≤ 0) := not_le.mpr hpos
    cases t with
    | int n =>
      simp only [pyFloatOf, Option.some.injEq, PyFloat.finite.injEq] at hq
      subst hq
      simp [configure_timeout, timeout_seconds_to_ms, timeoutFloatToMs,
        hq0, hms]
    | float f =>
      simp only [pyFloatOf, Option.some.injEq] at hq
      subst hq
      simp [configure_timeout, timeout_seconds_to_ms, timeoutFloatToMs,
        hq0, hms]
    | none => simp [pyFloatOf] at hq
    | bool b => simp [pyFloatOf] at hq
    | other => simp [pyFloatOf] at hq
  · rintro (⟨b, rfl⟩ | rfl | ⟨f, hf, hnf⟩ | ⟨q, hq, hq0⟩)
    · exact ⟨_, rfl⟩
    · exact ⟨_, rfl⟩
    · cases t with
      | int n =>
        simp only [pyFloatOf, Option.some.injEq] at hf
        exact absurd rfl (hf ▸ hnf (n : ℚ))
      | float f' =>
        simp only [pyFloatOf, Option.some.injEq] at hf
        subst hf
        cases f' with
        | finite q => exact absurd rfl (hnf q)
        | inf => exact ⟨_, rfl⟩
        | negInf => exact ⟨_, rfl⟩
        | nan => exact ⟨_, rfl⟩
      | none => simp [pyFloatOf] at hf
      | bool b => simp [pyFloatOf] at hf
      | other => simp [pyFloatOf] at hf
    · cases t with
      | int n =>
        simp only [pyFloatOf, Option.some.injEq, PyFloat.finite.injEq] at hq
        subst hq
        simp [configure_timeout, timeout_seconds_to_ms, timeoutFloatToMs, hq0]
      | float f =>
        simp only [pyFloatOf, Option.some.injEq] at hq
        subst hq
        simp [configure_timeout, timeout_seconds_to_ms, timeoutFloatToMs, hq0]
      | none => simp [pyFloatOf] at hq
      | bool b => simp [pyFloatOf] at hq
      | other => simp [pyFloatOf] at hq

/-- Witness for C3 at the concrete input timeout=2 seconds: stored as exactly
2000 milliseconds with a 2 second handler timeout. -/
theorem C3_timeout_canonicalization_witness :
    configure_timeout initialTimeoutState (.int 2) =
      .ok ⟨some (some 2000), some (some 2)⟩ := by
  have h := (C3_timeout_canonicalization initialTimeoutState (.int 2)).2.1
    ((2 : Int) : ℚ) rfl (by norm_num) (by norm_num)
  rw [h]
  norm_num

/-! Producer task cleanup in Sandbox._run_operation (core.py lines 487-501). -/

/-- The primitive steps of _run_operation acting on the guest operation and
the attached producer tasks, in execution order. -/
inductive RunOpStep where
  | awaitOperation
  | cancel (p : Nat)
  | gatherSuppress (ps : List Nat)
  | gatherJoin (ps : List Nat)
  | reraise
deriving DecidableEq

/-- Trace of _run_operation after the guest operation was awaited: if it
raised (any BaseException, including cancellation and timeout), cancel every
producer, gather them with return_exceptions=True when the list is non-empty,
and re-raise; on normal completion gather (join) them when non-empty. -/
def run_operation_trace (opRaised : Bool) (producers : List Nat) :
    List RunOpStep :=
  RunOpStep.awaitOperation ::
    (if opRaised then
      producers.map RunOpStep.cancel
        ++ (if producers.isEmpty then []
            else [RunOpStep.gatherSuppress producers])
        ++ [RunOpStep.reraise]
    else if producers.isEmpty then []
    else [RunOpStep.gatherJoin producers])

/-- C4: when the guest operation raises, every producer task is cancelled,
then the producers are awaited with exceptions suppressed, and only then does
the error propagate; when the operation completes normally, nothing is
re-raised, no producer is cancelled, and all producers are awaited before
returning. -/
theorem C4_producer_cleanup (producers : List Nat) :
    (∀ p ∈ producers, ∃ l₁ l₂ l₃,
      run_operation_trace true producers =
        l₁ ++ RunOpStep.cancel p :: l₂
          ++ RunOpStep.gatherSuppress producers :: l₃
          ++ [RunOpStep.reraise]) ∧
    RunOpStep.reraise ∉ run_operation_trace false producers ∧
    (∀ p, RunOpStep.cancel p ∉ run_operation_trace false producers) ∧
    (producers ≠ [] → run_operation_trace false producers =
      [RunOpStep.awaitOperation, RunOpStep.gatherJoin producers]) := by
  refine ⟨?_, ?_, ?_, ?_⟩
  · intro p hp
    obtain ⟨u, v, rfl⟩ := List.append_of_mem hp
    refine ⟨RunOpStep.awaitOperation :: u.map RunOpStep.cancel,
      v.map RunOpStep.cancel, [], ?_⟩
    simp [run_operation_trace]
  · cases producers <;> simp [run_operation_trace]
  · intro p
    cases producers <;> simp [run_operation_trace]
  · intro h
    cases producers with
    | nil => exact absurd rfl h
    | cons a l => simp [run_operation_trace]

/-- Witness for C4 at one producer task: the failure trace decomposes as
cancel, suppressed gather, re-raise, and the success trace joins it. -/
theorem C4_producer_cleanup_witness :
    (∃ l₁ l₂ l₃, run_operation_trace true [7] =
      l₁ ++ RunOpStep.cancel 7 :: l₂ ++ RunOpStep.gatherSuppress [7] :: l₃
        ++ [RunOpStep.reraise]) ∧
    run_operation_trace false [7] =
      [RunOpStep.awaitOperation, RunOpStep.gatherJoin [7]] :=
  ⟨(C4_producer_cleanup [7]).1 7 (by simp),
   (C4_producer_cleanup [7]).2.2.2 (by simp)⟩

/-! The run_stream exit protocol (core.py Sandbox.run_stream, lines 503-546). -/

/-- The callback state visible to run_stream: the Python-side _event_dispatch
slot and the callback registered on the native core, each holding a dispatch
closure identified by id. -/
structure CallbackState where
  event_dispatch : Option Nat
  core_callback : Option Nat
deriving DecidableEq

/-- The entry of run_stream (lines 508-518): capture the current dispatch as
previous_dispatch, then install the orchestrator dispatch in both slots.
Returns the new state and the captured previous dispatch. -/
def run_stream_enter (st : CallbackState) (installed : Nat) :
    CallbackState × Option Nat :=
  ({ event_dispatch := some installed, core_callback := some installed },
    st.event_dispatch)

/-- The cleanup actions of the run_stream finally block. -/
inductive ExitAction where
  | cancelRunTask
  | joinRunTask
deriving DecidableEq

/-- The finally block of run_stream (lines 540-546): restore the previous
dispatch in both slots only when the slot still holds the installed dispatch,
then cancel and join the run worker task when it is not yet done. -/
def run_stream_finally (st : CallbackState) (installed : Nat)
    (previous : Option Nat) (runTaskDone : Bool) :
    CallbackState × List ExitAction :=
  (if st.event_dispatch = some installed then
      { event_dispatch := previous, core_callback := previous }
    else st,
   if runTaskDone then []
   else [ExitAction.cancelRunTask, ExitAction.joinRunTask])

/-- C5: for a run_stream whose installed dispatch was not replaced by a
set_callback call during the run, the finally block — which runs on normal
termination, when the caller drops the iterator, and on cancellation —
restores both the sandbox dispatch slot and the core callback to exactly the
dispatch registered before run_stream started, and cancels and joins the run
worker task when it is still running. -/
theorem C5_run_stream_exit_restores_dispatch (st₀ exitSt : CallbackState)
    (installed : Nat) (runTaskDone : Bool)
    (hnotreplaced :
      exitSt.event_dispatch = some installed) :
    (run_stream_finally exitSt installed (run_stream_enter st₀ installed).2
        runTaskDone).1.event_dispatch = st₀.event_dispatch ∧
    (run_stream_finally exitSt installed (run_stream_enter st₀ installed).2
        runTaskDone).1.core_callback = st₀.event_dispatch ∧
    (runTaskDone = false →
      (run_stream_finally exitSt installed (run_stream_enter st₀ installed).2
        runTaskDone).2 = [ExitAction.cancelRunTask, ExitAction.joinRunTask]) ∧
    (runTaskDone = true →
      (run_stream_finally exitSt installed (run_stream_enter st₀ installed).2
        runTaskDone).2 = []) := by
  cases runTaskDone <;>
    simp [run_stream_finally, run_stream_enter, hnotreplaced]

/-- Witness for C5 at a concrete state: previous callback id 3 is restored and
the still-running worker is cancelled and joined. -/
theorem C5_run_stream_exit_restores_dispatch_witness :
    (run_stream_finally ⟨some 5, some 5⟩ 5
        (run_stream_enter ⟨some 3, some 3⟩ 5).2 false).1.event_dispatch =
      some 3 ∧
    (run_stream_finally ⟨some 5, some 5⟩ 5
        (run_stream_enter ⟨some 3, some 3⟩ 5).2 false).2 =
      [ExitAction.cancelRunTask, ExitAction.joinRunTask] := by
  have h := C5_run_stream_exit_restores_dispatch ⟨some 3, some 3⟩
    ⟨some 5, some 5⟩ 5 false rfl
  exact ⟨h.1, h.2.2.1 rfl⟩

/-! HTTP response body normalization (_normalize_http_response_body, core.py
lines 611-641) and the HTTP bridge dispatch (set_http_handler, lines
402-430). -/

/-- A Python bytes-like value: bytes, bytearray, or memoryview over a byte
sequence. -/
inductive PyBytesLike where
  | bytes (b : List Nat)
  | bytearray (b : List Nat)
  | memoryview (b : List Nat)
deriving DecidableEq

/-- The byte content of a bytes-like value: identity on bytes, the bytes(b)
copy of a bytearray, b.tobytes() of a memoryview. -/
def bytesOf : PyBytesLike → List Nat
  | .bytes b => b
  | .bytearray b => b
  | .memoryview b => b

/-- One element yielded by an async-iterable body: bytes-like or not. -/
inductive PyChunk where
  | chunk (c : PyBytesLike)
  | bad
deriving DecidableEq

/-- Whether a yielded element is bytes-like. -/
def PyChunk.isBytesLike : PyChunk → Bool
  | .chunk _ => true
  | .bad => false

/-- The byte content of a bytes-like chunk. -/
def chunkBytes : PyChunk → List Nat
  | .chunk c => bytesOf c
  | .bad => []

/-- A Python value returned as HttpResponse.body. -/
inductive PyBody where
  | none
  | bytesLike (b : PyBytesLike)
  | asyncIterable (chunks : List PyChunk)
  | other
deriving DecidableEq

/-- The payload slot of the normalized four-tuple: None, a byte buffer, or the
wrapped chunk source. -/
inductive BodyPayload where
  | none
  | bytes (b : List Nat)
  | stream (chunks : List PyChunk)
deriving DecidableEq

/-- _normalize_http_response_body (lines 611-641): None maps to
("none", None); bytes, bytearray and memoryview map to ("bytes", buffer) via
their respective byte conversions; any AsyncIterable maps to ("stream",
wrapped source); anything else raises TypeError. -/
def normalize_http_response_body : PyBody →
    Except PyError (String × BodyPayload)
  | .none => .ok ("none", BodyPayload.none)
  | .bytesLike (.bytes b) => .ok ("bytes", BodyPayload.bytes b)
  | .bytesLike (.bytearray b) => .ok ("bytes", BodyPayload.bytes b)
  | .bytesLike (.memoryview b) => .ok ("bytes", BodyPayload.bytes b)
  | .asyncIterable chunks => .ok ("stream", BodyPayload.stream chunks)
  | .other =>
    .error (.typeError
      "http response body must be bytes, AsyncIterable[bytes], or None")

/-- Consuming the generator _stream_body (lines 626-638): each bytes-like
chunk is re-yielded converted to bytes; the first chunk that is not bytes-like
raises TypeError after the previously yielded chunks. Returns the yielded
byte buffers and the raised error, when any. -/
def stream_body_iterate : List PyChunk → List (List Nat) × Option PyError
  | [] => ([], Option.none)
  | .chunk c :: rest =>
    let (ys, e) := stream_body_iterate rest
    (bytesOf c :: ys, e)
  | .bad :: _ =>
    ([], some (.typeError "http response stream chunks must be bytes-like"))

theorem stream_body_iterate_eq (chunks : List PyChunk) :
    stream_body_iterate chunks =
      ((chunks.takeWhile PyChunk.isBytesLike).map chunkBytes,
       if chunks.all PyChunk.isBytesLike then Option.none
       else some (.typeError "http response stream chunks must be bytes-like"))
    := by
  induction chunks with
  | nil => rfl
  | cons c rest ih =>
    cases c with
    | chunk b =>
      simp [stream_body_iterate, ih, List.takeWhile_cons, PyChunk.isBytesLike,
        chunkBytes]
    | bad =>
      simp [stream_body_iterate, List.takeWhile_cons, PyChunk.isBytesLike]

/-- C7: body normalization is total over the specified shapes and otherwise
raises: None maps to ("none", None); every bytes-like body maps to ("bytes",
b) with b content-equal to the input; an async-iterable body maps to
("stream", s) where iterating s re-yields each chunk converted to bytes and
raises TypeError at the first chunk that is not bytes-like; any other body
raises TypeError. -/
theorem C7_http_body_normalization (body : PyBody) :
    (body = PyBody.none →
      normalize_http_response_body body = .ok ("none", BodyPayload.none)) ∧
    (∀ bl : PyBytesLike, body = PyBody.bytesLike bl →
      normalize_http_response_body body =
        .ok ("bytes", BodyPayload.bytes (bytesOf bl))) ∧
    (∀ chunks : List PyChunk, body = PyBody.asyncIterable chunks →
      normalize_http_response_body body =
        .ok ("stream", BodyPayload.stream chunks) ∧
      stream_body_iterate chunks =
        ((chunks.takeWhile PyChunk.isBytesLike).map chunkBytes,
         if chunks.all PyChunk.isBytesLike then Option.none
         else some (.typeError
           "http response stream chunks must be bytes-like"))) ∧
    (body = PyBody.other → ∃ msg,
      normalize_http_response_body body = .error (.typeError msg)) := by
  refine ⟨?_, ?_, ?_, ?_⟩
  · rintro rfl; rfl
  · rintro bl rfl
    cases bl <;> rfl
  · rintro chunks rfl
    exact ⟨rfl, stream_body_iterate_eq chunks⟩
  · rintro rfl
    exact ⟨_, rfl⟩

/-- Witness for C7 at concrete bodies: a memoryview body, a stream body whose
second chunk is not bytes-like, and the None body. -/
theorem C7_http_body_normalization_witness :
    normalize_http_response_body (PyBody.bytesLike (.memoryview [1, 2])) =
      .ok ("bytes", BodyPayload.bytes [1, 2]) ∧
    stream_body_iterate [PyChunk.chunk (.bytes [7]), PyChunk.bad] =
      ([[7]],
        some (.typeError "http response stream chunks must be bytes-like")) ∧
    normalize_http_response_body PyBody.none =
      .ok ("none", BodyPayload.none) :=
  ⟨(C7_http_body_normalization (PyBody.bytesLike (.memoryview [1, 2]))).2.1
      (.memoryview [1, 2]) rfl,
   by
    have h := (C7_http_body_normalization
      (PyBody.asyncIterable [PyChunk.chunk (.bytes [7]), PyChunk.bad])).2.2.1
      [PyChunk.chunk (.bytes [7]), PyChunk.bad] rfl
    rw [h.2]
    rfl,
   (C7_http_body_normalization PyBody.none).1 rfl⟩

/-- The value the awaited user handler returns: an HttpResponse or anything
else. -/
inductive HandlerReturn where
  | httpResponse (status : Int) (headers : List (String × String))
      (body : PyBody)
  | notAResponse
deriving DecidableEq

/-- One handler invocation: how long its awaitable takes to complete, in
seconds, and the value it returns. -/
structure HandlerOutcome where
  duration : ℚ
  value : HandlerReturn
deriving DecidableEq

/-- The dispatch closure registered by set_http_handler (lines 412-427): read
self._http_handler_timeout_seconds (AttributeError when the attribute was
never assigned by configure); await the handler — wrapped in
asyncio.wait_for with that timeout when it is not None, which raises
TimeoutError when the handler does not complete within it; reject a return
value that is not an HttpResponse; normalize the body and return the
four-tuple. -/
def http_dispatch (timeoutAttr : Option (Option ℚ))
    (outcome : HandlerOutcome) :
    Except PyError (Int × List (String × String) × String × BodyPayload) :=
  match timeoutAttr with
  | Option.none => .error (.attributeError "_http_handler_timeout_seconds")
  | some timeoutSeconds =>
    let awaited : Except PyError HandlerReturn :=
      match timeoutSeconds with
      | Option.none => .ok outcome.value
      | some limit =>
        if limit < outcome.duration then .error .timeoutError
        else .ok outcome.value
    match awaited with
    | .error e => .error e
    | .ok (.notAResponse) =>
      .error (.typeError "http handler must return HttpResponse")
    | .ok (.httpResponse status headers body) =>
      match normalize_http_response_body body with
      | .error e => .error e
      | .ok (mode, payload) => .ok (status, headers, mode, payload)

/-- C2 evaluated at the failing input and at the configured cases: on a
sandbox whose timeout was never configured the dispatch raises AttributeError
reading _http_handler_timeout_seconds instead of awaiting the handler — the
attribute is only ever assigned inside configure, never by Sandbox.__init__;
after configure(timeout=2) the dispatch enforces exactly a 2 second wait_for
(2000 ms / 1000), failing with TimeoutError instead of returning a response
when the handler takes longer, and returning the normalized four-tuple when it
completes in time; after configure(timeout=None) the handler is awaited with
no timeout wrapper and its normalized four-tuple is returned whatever its
duration. -/
theorem C2_http_dispatch_timeout :
    http_dispatch initialTimeoutState.http_handler_timeout_seconds
        ⟨0, .httpResponse 200 [] PyBody.none⟩ =
      .error (.attributeError "_http_handler_timeout_seconds") ∧
    configure_timeout initialTimeoutState (.int 2) =
      .ok ⟨some (some 2000), some (some 2)⟩ ∧
    http_dispatch (some (some 2)) ⟨3, .httpResponse 200 [] PyBody.none⟩ =
      .error PyError.timeoutError ∧
    http_dispatch (some (some 2))
        ⟨1, .httpResponse 201 [("x-test", "bytes")]
          (PyBody.bytesLike (.bytes [111, 107]))⟩ =
      .ok (201, [("x-test", "bytes")], "bytes", BodyPayload.bytes [111, 107]) ∧
    http_dispatch (some Option.none)
        ⟨1000000, .httpResponse 200 [] PyBody.none⟩ =
      .ok (200, [], "none", BodyPayload.none) := by
  refine ⟨rfl, ?_, ?_, ?_, rfl⟩
  · simp only [configure_timeout, timeout_seconds_to_ms, timeoutFloatToMs]
    norm_num
  · simp only [http_dispatch]
    norm_num
  · simp only [http_dispatch]
    norm_num [normalize_http_response_body]

/-! Compactness of the serializer: the encoder inserts only the separators ","
and ":", so any space character of the output comes from a payload string. -/

/-- Whether a string contains the space character. -/
def strHasSpace (s : String) : Bool := s.data.any (fun c => c = ' ')

mutual

/-- Whether none of the string scalars and object keys of a value contains a
space. -/
def jsonStrsSpaceFree : JsonValue → Bool
  | .null => true
  | .bool _ => true
  | .num _ => true
  | .str s => !strHasSpace s
  | .arr elems => itemsSpaceFree elems
  | .obj members => membersSpaceFree members

/-- jsonStrsSpaceFree over array items. -/
def itemsSpaceFree : List JsonValue → Bool
  | [] => true
  | v :: rest => jsonStrsSpaceFree v && itemsSpaceFree rest

/-- jsonStrsSpaceFree over object members, keys included. -/
def membersSpaceFree : List (String × JsonValue) → Bool
  | [] => true
  | (k, v) :: rest =>
    !strHasSpace k && jsonStrsSpaceFree v && membersSpaceFree rest

end

theorem strHasSpace_append (a b : String) :
    strHasSpace (a ++ b) = (strHasSpace a || strHasSpace b) := by
  simp [strHasSpace, String.data_append]

theorem hexDigitChar_ne_space : ∀ n, n < 16 → hexDigitChar n ≠ ' ' := by
  decide

theorem strHasSpace_hex4 (n : Nat) : strHasSpace (hex4 n) = false := by
  have h1 := hexDigitChar_ne_space (n / 4096 % 16) (Nat.mod_lt _ (by norm_num))
  have h2 := hexDigitChar_ne_space (n / 256 % 16) (Nat.mod_lt _ (by norm_num))
  have h3 := hexDigitChar_ne_space (n / 16 % 16) (Nat.mod_lt _ (by norm_num))
  have h4 := hexDigitChar_ne_space (n % 16) (Nat.mod_lt _ (by norm_num))
  simp [hex4, strHasSpace, h1, h2, h3, h4]

theorem strHasSpace_escapeChar (c : Char) (h : c ≠ ' ') :
    strHasSpace (escapeChar c) = false := by
  unfold escapeChar
  by_cases h1 : c = '"'
  · rw [if_pos h1]; decide
  rw [if_neg h1]
  by_cases h2 : c = '\\'
  · rw [if_pos h2]; decide
  rw [if_neg h2]
  by_cases h3 : c = '\n'
  · rw [if_pos h3]; decide
  rw [if_neg h3]
  by_cases h4 : c = '\t'
  · rw [if_pos h4]; decide
  rw [if_neg h4]
  by_cases h5 : c = '\r'
  · rw [if_pos h5]; decide
  rw [if_neg h5]
  by_cases h6 : c.toNat = 8
  · rw [if_pos h6]; decide
  rw [if_neg h6]
  by_cases h7 : c.toNat = 12
  · rw [if_pos h7]; decide
  rw [if_neg h7]
  by_cases h8 : c.toNat < 32
  · rw [if_pos h8]
    simp only [strHasSpace_append, strHasSpace_hex4]
    decide
  rw [if_neg h8]
  by_cases h9 : c.toNat < 127
  · rw [if_pos h9]
    simp [strHasSpace, String.singleton, h]
  rw [if_neg h9]
  by_cases h10 : c.toNat < 65536
  · rw [if_pos h10]
    simp only [strHasSpace_append, strHasSpace_hex4]
    decide
  rw [if_neg h10]
  simp only [strHasSpace_append, strHasSpace_hex4]
  decide

theorem strHasSpace_escapeAll (l : List Char) (h : ∀ c ∈ l, c ≠ ' ') :
    strHasSpace (escapeAll l) = false := by
  induction l with
  | nil => rfl
  | cons c rest ih =>
    rw [escapeAll, strHasSpace_append,
      strHasSpace_escapeChar c (h c (by simp)),
      ih (fun x hx => h x (by simp [hx]))]
    rfl

theorem strHasSpace_dumpStr (s : String) (h : strHasSpace s = false) :
    strHasSpace (dumpStr s) = false := by
  have hc : ∀ c ∈ s.data, c ≠ ' ' := by
    simp only [strHasSpace, List.any_eq_false, decide_eq_true_eq] at h
    exact h
  rw [dumpStr, strHasSpace_append, strHasSpace_append,
    strHasSpace_escapeAll s.data hc]
  decide

theorem digitChar_ne_space (n : Nat) : Nat.digitChar n ≠ ' ' := by
  by_cases h : n < 16
  · revert h
    revert n
    decide
  · have hstar : Nat.digitChar n = '*' := by
      unfold Nat.digitChar
      rw [if_neg (by omega : ¬ n = 0), if_neg (by omega : ¬ n = 1),
        if_neg (by omega : ¬ n = 2), if_neg (by omega : ¬ n = 3),
        if_neg (by omega : ¬ n = 4), if_neg (by omega : ¬ n = 5),
        if_neg (by omega : ¬ n = 6), if_neg (by omega : ¬ n = 7),
        if_neg (by omega : ¬ n = 8), if_neg (by omega : ¬ n = 9),
        if_neg (by omega : ¬ n = 10), if_neg (by omega : ¬ n = 11),
        if_neg (by omega : ¬ n = 12), if_neg (by omega : ¬ n = 13),
        if_neg (by omega : ¬ n = 14), if_neg (by omega : ¬ n = 15)]
    rw [hstar]
    decide

theorem toDigitsCore_ne_space (b : Nat) (fuel : Nat) :
    ∀ (n : Nat) (ds : List Char), (∀ c ∈ ds, c ≠ ' ') →
    ∀ c ∈ Nat.toDigitsCore b fuel n ds, c ≠ ' ' := by
  induction fuel with
  | zero => intro n ds h; exact h
  | succ fuel ih =>
    intro n ds h
    have hstep : Nat.toDigitsCore b (fuel + 1) n ds =
        if n / b = 0 then Nat.digitChar (n % b) :: ds
        else Nat.toDigitsCore b fuel (n / b) (Nat.digitChar (n % b) :: ds) :=
      rfl
    rw [hstep]
    have hcons : ∀ c ∈ Nat.digitChar (n % b) :: ds, c ≠ ' ' := by
      intro c hc
      rcases List.mem_cons.mp hc with rfl | hc
      · exact digitChar_ne_space _
      · exact h c hc
    by_cases hz : n / b = 0
    · rw [if_pos hz]; exact hcons
    · rw [if_neg hz]; exact ih (n / b) _ hcons

theorem strHasSpace_natRepr (n : Nat) : strHasSpace (Nat.repr n) = false := by
  have h := toDigitsCore_ne_space 10 (n + 1) n [] (by simp)
  simp only [Nat.repr, Nat.toDigits, strHasSpace, List.asString,
    List.any_eq_false, decide_eq_true_eq]
  exact h

theorem strHasSpace_intRepr (n : Int) : strHasSpace (Int.repr n) = false := by
  cases n with
  | ofNat m => simpa [Int.repr] using strHasSpace_natRepr m
  | negSucc m =>
    rw [Int.repr, strHasSpace_append, strHasSpace_natRepr]
    rfl

mutual

theorem dumps_space_free (v : JsonValue) (h : jsonStrsSpaceFree v = true) :
    strHasSpace (dumps v) = false := by
  cases v with
  | null => simp [dumps, strHasSpace]
  | bool b => cases b <;> simp [dumps, strHasSpace]
  | num n => simpa [dumps] using strHasSpace_intRepr n
  | str s =>
    rw [show dumps (.str s) = dumpStr s from by simp [dumps]]
    refine strHasSpace_dumpStr s ?_
    simpa [jsonStrsSpaceFree] using h
  | arr elems =>
    have hi := dumpsItems_space_free elems
      (by simpa [jsonStrsSpaceFree] using h)
    rw [show dumps (.arr elems) = "[" ++ dumpsItems elems ++ "]" from by
      simp [dumps]]
    rw [strHasSpace_append, strHasSpace_append, hi]
    rfl
  | obj members =>
    have hm := dumpsMembers_space_free members
      (by simpa [jsonStrsSpaceFree] using h)
    rw [show dumps (.obj members) = "\x7b" ++ dumpsMembers members ++ "\x7d"
      from by simp [dumps]]
    rw [strHasSpace_append, strHasSpace_append, hm]
    rfl

theorem dumpsItems_space_free (l : List JsonValue)
    (h : itemsSpaceFree l = true) : strHasSpace (dumpsItems l) = false := by
  cases l with
  | nil => simp [dumpsItems, strHasSpace]
  | cons v rest =>
    rw [show itemsSpaceFree (v :: rest) =
        (jsonStrsSpaceFree v && itemsSpaceFree rest) from by
      simp [itemsSpaceFree]] at h
    rw [Bool.and_eq_true] at h
    cases rest with
    | nil =>
      rw [show dumpsItems [v] = dumps v from by simp [dumpsItems]]
      exact dumps_space_free v h.1
    | cons w ws =>
      have h1 := dumps_space_free v h.1
      have h2 := dumpsItems_space_free (w :: ws) h.2
      rw [show dumpsItems (v :: w :: ws) =
          dumps v ++ "," ++ dumpsItems (w :: ws) from by simp [dumpsItems]]
      rw [strHasSpace_append, strHasSpace_append, h1, h2]
      rfl

theorem dumpsMembers_space_free (l : List (String × JsonValue))
    (h : membersSpaceFree l = true) : strHasSpace (dumpsMembers l) = false := by
  cases l with
  | nil => simp [dumpsMembers, strHasSpace]
  | cons kv rest =>
    obtain ⟨k, v⟩ := kv
    rw [show membersSpaceFree ((k, v) :: rest) =
        (!strHasSpace k && jsonStrsSpaceFree v && membersSpaceFree rest)
      from by simp [membersSpaceFree]] at h
    rw [Bool.and_eq_true, Bool.and_eq_true] at h
    have hk := strHasSpace_dumpStr k (by simpa using h.1.1)
    have hv := dumps_space_free v h.1.2
    cases rest with
    | nil =>
      rw [show dumpsMembers [(k, v)] = dumpStr k ++ ":" ++ dumps v from by
        simp [dumpsMembers]]
      rw [strHasSpace_append, strHasSpace_append, hk, hv]
      rfl
    | cons kv2 ws =>
      have h2 := dumpsMembers_space_free (kv2 :: ws) h.2
      rw [show dumpsMembers ((k, v) :: kv2 :: ws) =
          dumpStr k ++ ":" ++ dumps v ++ "," ++ dumpsMembers (kv2 :: ws)
        from by simp [dumpsMembers]]
      rw [strHasSpace_append, strHasSpace_append, strHasSpace_append,
        strHasSpace_append, hk, hv, h2]
      rfl

end

/-! Argument encoding (_encode_args, core.py lines 586-608). -/

/-- The Arg dataclass (lines 120-123): a value with an optional name. -/
structure ArgModel where
  value : JsonValue
  name : Option String

/-- A StreamArg as seen by the encoder: its optional name, its native stream
handle, and its optional producer task. -/
structure StreamArgView where
  name : Option String
  handle : Nat
  producer_task : Option Nat

/-- One run argument: a named Arg, a StreamArg, or any other (JSON) value. -/
inductive RunArg where
  | arg (a : ArgModel)
  | streamArg (s : StreamArgView)
  | plain (value : JsonValue)

/-- The value slot of one encoded triple. -/
inductive EncodedValue where
  | json (payload : String)
  | stream (handle : Nat)

/-- The loop body of _encode_args over the argument list: an Arg appends
("json", name, to_json value); a StreamArg appends ("stream", name, handle)
and tracks its producer task when present; any other value appends
("json", None, to_json value). -/
def encodeLoop : List RunArg →
    List (String × Option String × EncodedValue) × List Nat
  | [] => ([], [])
  | a :: rest =>
    let (encoded, producers) := encodeLoop rest
    match a with
    | .arg a => (("json", a.name, .json (to_json a.value)) :: encoded,
        producers)
    | .streamArg s =>
      (("stream", s.name, .stream s.handle) :: encoded,
        match s.producer_task with
        | some p => p :: producers
        | Option.none => producers)
    | .plain v => (("json", Option.none, .json (to_json v)) :: encoded,
        producers)

/-- _encode_args (lines 586-608): None encodes to no triples and no
producers; a list is encoded element by element in order. -/
def encode_args : Option (List RunArg) →
    List (String × Option String × EncodedValue) × List Nat
  | Option.none => ([], [])
  | some args => encodeLoop args

/-- The documented encoding of a single argument. -/
def specEncodeArg : RunArg → String × Option String × EncodedValue
  | .arg a => ("json", a.name, .json (to_json a.value))
  | .streamArg s => ("stream", s.name, .stream s.handle)
  | .plain v => ("json", Option.none, .json (to_json v))

/-- The tracked producer task of a single argument, when any. -/
def specProducer : RunArg → Option Nat
  | .streamArg s => s.producer_task
  | _ => Option.none

/-- C6: the encoder produces one triple per argument in order — ("json",
name, compact serialization) for a named Arg, ("stream", name, handle) for a
StreamArg whose producer task, when present, is tracked in order, and
("json", None, compact serialization) for any other value; a None argument
list encodes to an empty triple list and an empty producer list; and the
serialization is compact — when no payload string or key contains a space,
the serialized output contains no space at all (every separator is "," or
":" with no whitespace). -/
theorem encodeLoop_eq (args : List RunArg) :
    encodeLoop args = (args.map specEncodeArg, args.filterMap specProducer) := by
  induction args with
  | nil => rfl
  | cons a rest ih =>
    cases a with
    | arg a => simp [encodeLoop, ih, specEncodeArg, specProducer]
    | streamArg s =>
      cases hp : s.producer_task <;>
        simp [encodeLoop, ih, specEncodeArg, specProducer, hp]
    | plain v => simp [encodeLoop, ih, specEncodeArg, specProducer]

theorem C6_encode_args (args : List RunArg) :
    encode_args (some args) =
      (args.map specEncodeArg, args.filterMap specProducer) ∧
    encode_args Option.none = ([], []) ∧
    (∀ v : JsonValue, jsonStrsSpaceFree v = true →
      strHasSpace (to_json v) = false) :=
  ⟨encodeLoop_eq args, rfl, fun v hv => dumps_space_free v hv⟩

/-- Witness for C6: a concrete three-argument list — a named Arg carrying
true, a StreamArg with a producer, and a bare string — and the space-free
serialization of a concrete object. -/
theorem C6_encode_args_witness :
    encode_args (some [RunArg.arg ⟨JsonValue.bool true, some "a"⟩,
        RunArg.streamArg ⟨some "s", 4, some 9⟩,
        RunArg.plain (JsonValue.str "hi")]) =
      ([("json", some "a", .json (to_json (JsonValue.bool true))),
        ("stream", some "s", .stream 4),
        ("json", Option.none, .json (to_json (JsonValue.str "hi")))],
       [9]) ∧
    strHasSpace (to_json (JsonValue.obj [("k", JsonValue.num 1)])) = false :=
  ⟨(C6_encode_args [RunArg.arg ⟨JsonValue.bool true, some "a"⟩,
      RunArg.streamArg ⟨some "s", 4, some 9⟩,
      RunArg.plain (JsonValue.str "hi")]).1,
   (C6_encode_args []).2.2 (JsonValue.obj [("k", JsonValue.num 1)])
     (by simp [jsonStrsSpaceFree, membersSpaceFree, strHasSpace])⟩

/-- C8: on both host boundary paths — the set_callback dispatch and the
run_stream queue dispatch — the raw kind result_json is rewritten to result
and end_json to end before the Event is delivered, and every other kind
passes through unchanged; the data string is never touched. -/
theorem C8_event_kind_normalization (data : Option String) :
    (set_callback_event "result_json" data = ⟨"result", data⟩ ∧
      run_stream_event "result_json" data = ⟨"result", data⟩) ∧
    (set_callback_event "end_json" data = ⟨"end", data⟩ ∧
      run_stream_event "end_json" data = ⟨"end", data⟩) ∧
    (∀ kind : String, kind ≠ "result_json" → kind ≠ "end_json" →
      set_callback_event kind data = ⟨kind, data⟩ ∧
      run_stream_event kind data = ⟨kind, data⟩) := by
  refine ⟨⟨rfl, rfl⟩, ⟨rfl, rfl⟩, ?_⟩
  intro kind h1 h2
  constructor <;>
    simp [set_callback_event, run_stream_event, mapEventKind, dictGetD,
      EVENT_KIND_MAP, Ne.symm h1, Ne.symm h2]

/-- Witness for C8: the kinds result_json and stdout at concrete data. -/
theorem C8_event_kind_normalization_witness :
    set_callback_event "result_json" (some "1") = ⟨"result", some "1"⟩ ∧
    run_stream_event "stdout" (some "x") = ⟨"stdout", some "x"⟩ :=
  ⟨((C8_event_kind_normalization (some "1")).1).1,
    ((C8_event_kind_normalization (some "x")).2.2 "stdout" (by decide)
      (by decide)).2⟩

/-! Sandbox construction and the handler registration slots (Sandbox.__init__
lines 327-339, set_http_handler lines 402-430, set_callback lines 354-400,
close and aclose lines 560-572). -/

/-- The registration slots of a Sandbox touched by construction, handler and
callback registration, and teardown; dispatch closures are identified by id. -/
structure SandboxSlots where
  http_handler_dispatch : Option Nat
  event_dispatch : Option Nat
  closed : Bool
deriving DecidableEq

/-- The id of the dispatch wrapping the module default _default_httpx_handler
(lines 64-85). -/
def DEFAULT_HTTPX_HANDLER : Nat := 0

/-- The slots of a freshly constructed Sandbox: the default handler dispatch
installed, no event dispatch, not closed. -/
def initialSlots : SandboxSlots :=
  { http_handler_dispatch := some DEFAULT_HTTPX_HANDLER
    event_dispatch := Option.none
    closed := false }

/-- Sandbox.__init__ (lines 328-339): both dispatch slots start at None, then
set_http_handler(_default_httpx_handler) runs, which — the handler being
non-None — calls asyncio.get_running_loop(), raising RuntimeError when no
event loop is running, and registers the dispatch wrapping the default
handler. -/
def sandbox_init (loopRunning : Bool) : Except PyError SandboxSlots :=
  if loopRunning then .ok initialSlots
  else .error (.runtimeError "no running event loop")

/-- Host operations that touch the registration slots after construction. -/
inductive SandboxOp where
  | set_http_handler (handler : Option Nat)
  | set_callback (cb : Option Nat)
  | close
  | aclose
deriving DecidableEq

/-- Effect of one operation on the slots: set_http_handler stores the
dispatch wrapping its handler (None clears the slot), set_callback stores the
event dispatch, close and aclose clear both slots and mark the sandbox
closed. -/
def applyOp (st : SandboxSlots) : SandboxOp → SandboxSlots
  | .set_http_handler h => { st with http_handler_dispatch := h }
  | .set_callback cb => { st with event_dispatch := cb }
  | .close => { http_handler_dispatch := Option.none
                event_dispatch := Option.none
                closed := true }
  | .aclose => { http_handler_dispatch := Option.none
                 event_dispatch := Option.none
                 closed := true }

/-- A sequence of host operations applied in order. -/
def applyOps (st : SandboxSlots) (ops : List SandboxOp) : SandboxSlots :=
  ops.foldl applyOp st

/-- C9 counterexample: the claim that the HTTP handler dispatch stays
registered and non-None until the host explicitly calls
set_http_handler(None) is false — Sandbox.close (and aclose) also clears the
slot. The concrete trace [close] contains no set_http_handler(None) call yet
leaves the dispatch None. -/
theorem C9_counterexample :
    ¬ (∀ (st : SandboxSlots) (ops : List SandboxOp),
        sandbox_init true = .ok st →
        SandboxOp.set_http_handler Option.none ∉ ops →
        (applyOps st ops).http_handler_dispatch ≠ Option.none) := by
  intro hclaim
  exact hclaim initialSlots [SandboxOp.close] rfl (by decide) rfl

theorem applyOps_keeps_http_dispatch (ops : List SandboxOp) :
    ∀ st : SandboxSlots, st.http_handler_dispatch ≠ Option.none →
    SandboxOp.set_http_handler Option.none ∉ ops →
    SandboxOp.close ∉ ops → SandboxOp.aclose ∉ ops →
    (applyOps st ops).http_handler_dispatch ≠ Option.none := by
  induction ops with
  | nil => intro st h _ _ _; exact h
  | cons op rest ih =>
    intro st h hn hc ha
    rw [show applyOps st (op :: rest) = applyOps (applyOp st op) rest from rfl]
    refine ih (applyOp st op) ?_ (fun hm => hn (List.mem_cons_of_mem _ hm))
      (fun hm => hc (List.mem_cons_of_mem _ hm))
      (fun hm => ha (List.mem_cons_of_mem _ hm))
    cases op with
    | set_http_handler hh =>
      cases hh with
      | none => exact absurd (List.mem_cons_self _ _) hn
      | some d => simp [applyOp]
    | set_callback cb => simpa [applyOp] using h
    | close => exact absurd (List.mem_cons_self _ _) hc
    | aclose => exact absurd (List.mem_cons_self _ _) ha

/-- C9 amended: constructing a Sandbox requires a running asyncio event loop
(RuntimeError otherwise) and installs the default httpx handler dispatch, so
the HTTP handler dispatch is registered and non-None until the host
explicitly calls set_http_handler(None) or closes the sandbox — close and
aclose also clear the slot. -/
theorem C9_default_handler_at_construction (st : SandboxSlots)
    (ops : List SandboxOp) (hinit : sandbox_init true = .ok st)
    (hnone : SandboxOp.set_http_handler Option.none ∉ ops)
    (hclose : SandboxOp.close ∉ ops) (haclose : SandboxOp.aclose ∉ ops) :
    sandbox_init false = .error (.runtimeError "no running event loop") ∧
    st.http_handler_dispatch = some DEFAULT_HTTPX_HANDLER ∧
    (applyOps st ops).http_handler_dispatch ≠ Option.none := by
  have h2 : (Except.ok initialSlots : Except PyError SandboxSlots) =
      .ok st := by
    rw [← hinit]
    rfl
  injection h2 with h3
  subst h3
  exact ⟨rfl, rfl,
    applyOps_keeps_http_dispatch ops _ (by simp [initialSlots]) hnone hclose
      haclose⟩

/-- Witness for C9: a trace that swaps callbacks and installs a custom
handler keeps the dispatch non-None. -/
theorem C9_default_handler_at_construction_witness :
    sandbox_init false = .error (.runtimeError "no running event loop") ∧
    (applyOps initialSlots
      [SandboxOp.set_callback (some 1),
        SandboxOp.set_http_handler (some 4)]).http_handler_dispatch ≠
      Option.none := by
  have h := C9_default_handler_at_construction initialSlots
    [SandboxOp.set_callback (some 1), SandboxOp.set_http_handler (some 4)]
    rfl (by decide) (by decide) (by decide)
  exact ⟨h.1, h.2.2⟩

/-! The stream argument channel and StreamArg.from_iterable (core.py lines
126-186). The channel itself is the native _StreamCore of the Rust crate
behind isola._isola; its operations are modelled from the spec. -/

/-- Modelled from the spec: the native stream channel _StreamCore (spec 4.1,
Stream channel) missing from the Python sources — a bounded FIFO of JSON
payload strings with a capacity and a terminal ended flag. -/
structure StreamCore where
  capacity : Nat
  buffer : List String
  ended : Bool
deriving DecidableEq

/-- Modelled from the spec: create(capacity) yields an empty open stream. -/
def StreamCore.create (capacity : Nat) : StreamCore := ⟨capacity, [], false⟩

/-- Producer-side failure conditions of the stream channel. -/
inductive StreamError where
  | streamClosed
  | streamFull
deriving DecidableEq

/-- Modelled from the spec: push_json fails with StreamClosed after end(),
fails with StreamFull at capacity without side effects, and otherwise
enqueues the payload in FIFO order. -/
def StreamCore.push_json (s : StreamCore) (payload : String) :
    Except StreamError StreamCore :=
  if s.ended then .error .streamClosed
  else if s.capacity ≤ s.buffer.length then .error .streamFull
  else .ok { s with buffer := s.buffer ++ [payload] }

/-- Modelled from the spec: end() sets the terminal flag; further pushes fail
and a draining consumer observes termination. -/
def StreamCore.end_ (s : StreamCore) : StreamCore := { s with ended := true }

/-- Modelled from the spec: the consumer side drains the queued payloads in
FIFO order and then observes termination exactly when the stream has ended. -/
def StreamCore.consume (s : StreamCore) : List String × Bool :=
  (s.buffer, s.ended)

/-- A StreamArg as constructed by from_iterable: the wrapped core, the
optional name, and the producer task (absent on the no-event-loop path). -/
structure StreamArgModel where
  core : StreamCore
  name : Option String
  producer_task : Option Nat
deriving DecidableEq

/-- The no-running-event-loop branch of StreamArg.from_iterable (lines
171-179): buffer the values, create a core of capacity
max(capacity, len(buffered), 1), push the compact JSON serialization of each
buffered value in order, end the stream, and return a StreamArg with no
producer task. -/
def from_iterable_noloop (values : List JsonValue) (name : Option String)
    (capacity : Nat) : Except StreamError StreamArgModel := do
  let core₀ := StreamCore.create (max capacity (max values.length 1))
  let core ← values.foldlM (fun c item => c.push_json (to_json item)) core₀
  pure { core := core.end_, name := name, producer_task := Option.none }

theorem pushAll_ok (values : List JsonValue) :
    ∀ (buf : List String) (cap : Nat), buf.length + values.length ≤ cap →
    values.foldlM (fun c item => c.push_json (to_json item))
        (⟨cap, buf, false⟩ : StreamCore) =
      .ok ⟨cap, buf ++ values.map to_json, false⟩ := by
  induction values with
  | nil =>
    intro buf cap _
    simp only [List.foldlM_nil, List.map_nil, List.append_nil]
    rfl
  | cons v rest ih =>
    intro buf cap hle
    rw [List.length_cons] at hle
    have hfit : ¬ (cap ≤ buf.length) := by omega
    rw [List.foldlM_cons]
    rw [show (StreamCore.push_json ⟨cap, buf, false⟩ (to_json v)) =
        .ok ⟨cap, buf ++ [to_json v], false⟩ from by
      simp [StreamCore.push_json, hfit]]
    rw [show ∀ k : StreamCore → Except StreamError StreamCore,
        (Except.ok (⟨cap, buf ++ [to_json v], false⟩ : StreamCore) >>= k) =
          k ⟨cap, buf ++ [to_json v], false⟩ from fun k => rfl]
    rw [ih (buf ++ [to_json v]) cap (by
      rw [List.length_append]
      simp only [List.length_singleton]
      omega)]
    simp

/-- C10: for every finite value list and requested capacity, from_iterable
with no running event loop returns — no push can fail — a StreamArg with no
producer task whose stream was created with capacity
max(capacity, number of values, 1), holds the compact JSON serialization of
each value in iteration order, and has been ended, so a consumer draining it
observes exactly the serialized values followed by termination. -/
theorem C10_from_iterable_noloop (values : List JsonValue)
    (name : Option String) (capacity : Nat) :
    from_iterable_noloop values name capacity =
      .ok { core := { capacity := max capacity (max values.length 1)
                      buffer := values.map to_json
                      ended := true }
            name := name
            producer_task := Option.none } ∧
    StreamCore.consume
        { capacity := max capacity (max values.length 1)
          buffer := values.map to_json
          ended := true } =
      (values.map to_json, true) := by
  constructor
  · rw [from_iterable_noloop]
    have hcap : values.length ≤ max capacity (max values.length 1) :=
      le_trans (le_max_left _ _) (le_max_right _ _)
    rw [show StreamCore.create (max capacity (max values.length 1)) =
        ⟨max capacity (max values.length 1), [], false⟩ from rfl]
    rw [pushAll_ok values [] _ (by simpa using hcap)]
    rfl
  · rfl

end Isola
